import Mathlib

/-!
Shallow embedding of the proxyFirewall repository (Django project
`Aplicaciones`): the rule-condition validator, the rule write path, the
squid access-log ingestion pipeline, and the startup account bootstrap.
Each definition mirrors one Python function or code block of the sources;
theorems at the end of the file settle the specification claims.
-/

namespace ProxyFirewall

/-- JSON-like values, the payload type of `Rule.condition`
(`control/models.py`).  Python floats do not occur in the documents the
validator handles, so numbers are modelled as integers. -/
inductive JVal where
  | null : JVal
  | bool : Bool → JVal
  | num  : Int → JVal
  | str  : String → JVal
  | arr  : List JVal → JVal
  | obj  : List (String × JVal) → JVal

/-- Whitespace characters removed by Python `str.strip()`. -/
def isPySpace (c : Char) : Bool :=
  c = ' ' || c = '\t' || c = '\n' || c = '\r' || c = '\x0b' || c = '\x0c'

/-- Python `str.strip()`: remove leading and trailing whitespace. -/
def pyStrip (s : String) : String :=
  ⟨((s.data.dropWhile isPySpace).reverse.dropWhile isPySpace).reverse⟩

/-- `d.get(key)` on a Python dict: the value stored at `key`, if present
(keys of a Python dict are unique, so first match suffices). -/
def jget : List (String × JVal) → String → Option JVal
  | [], _ => none
  | (k, v) :: rest, key => if k = key then some v else jget rest key

/-- Python truthiness of `d.get(k)` as used by
`any(match.get(k) for k in allowed_match_keys)`:
`None`, `False`, `0`, `""`, `[]`, `{}` are falsy. -/
def jTruthy : Option JVal → Bool
  | none => false
  | some .null => false
  | some (.bool b) => b
  | some (.num n) => n != 0
  | some (.str s) => !(s = "")
  | some (.arr l) => !l.isEmpty
  | some (.obj l) => !l.isEmpty

/-- `_is_time_hhmm` (`control/models.py`): full match of the regex
`([01]\d|2[0-3]):[0-5]\d`. -/
def isTimeHHMM (s : String) : Bool :=
  match s.data with
  | [h1, h2, c, m1, m2] =>
      (((h1 = '0' || h1 = '1') && h2.isDigit) ||
        (h1 = '2' && (h2 = '0' || h2 = '1' || h2 = '2' || h2 = '3'))) &&
      c = ':' && ('0' ≤ m1 && m1 ≤ '5') && m2.isDigit
  | _ => false

/-- `_is_time_hhmm(str(value))` applied to an optional JSON value: the
Python code calls `str` on the raw value first; `str` of any non-string
JSON value (`None`, numbers, booleans, lists, dicts) can never match the
five-character `HH:MM` pattern, so only string values can succeed. -/
def jvalTimeOk : Option JVal → Bool
  | some (.str s) => isTimeHHMM s
  | _ => false

/-- The seven weekday codes (`DAYS` in `control/models.py`). -/
def DAYS : List String := ["MON", "TUE", "WED", "THU", "FRI", "SAT", "SUN"]

/-- The five admissible `match` keys (`allowed_match_keys`). -/
def allowedMatchKeys : List String :=
  ["zones", "url_categories", "urls", "http_methods", "services"]

def insertSorted (s : String) : List String → List String
  | [] => [s]
  | x :: xs => if s ≤ x then s :: x :: xs else x :: insertSorted s xs

/-- `sorted(...)` on a list of strings. -/
def sortStrings : List String → List String
  | [] => []
  | x :: xs => insertSorted x (sortStrings xs)

def isStrVal : JVal → Bool
  | .str _ => true
  | _ => false

/-- The per-item check of the `services` loop in `validate_rule_condition`:
each item must be a dict, its `protocol` must be the string `TCP` or `UDP`
(set membership in Python), and its `port` an int in `1..65535`. -/
def validateService (s : JVal) : Except String Unit :=
  match s with
  | .obj entries =>
      (match jget entries "protocol" with
       | some (.str p) =>
           if p = "TCP" || p = "UDP" then
             match jget entries "port" with
             | some (.num n) =>
                 if n < 1 || n > 65535 then
                   .error "services.port debe ser entero 1..65535."
                 else .ok ()
             | _ => .error "services.port debe ser entero 1..65535."
           else .error "services.protocol debe ser TCP o UDP."
       | _ => .error "services.protocol debe ser TCP o UDP.")
  | _ => .error "Cada item de services debe ser objeto de protocol y port."

def validateServices : List JVal → Except String Unit
  | [] => .ok ()
  | s :: rest =>
      match validateService s with
      | .ok _ => validateServices rest
      | .error e => .error e

/-- Sequencing of two validation steps: the first raised error wins
(models the sequential `raise` structure of `validate_rule_condition`). -/
def seqE : Except String Unit → Except String Unit → Except String Unit
  | .ok _, b => b
  | .error e, _ => .error e

/-- The `version` check: `condition.get("version") != 1` raises. -/
def checkVersion (entries : List (String × JVal)) : Except String Unit :=
  match jget entries "version" with
  | some (.num 1) => .ok ()
  | _ => .error "condition.version debe ser 1."

/-- The `note` check: `note` must be a string that is non-blank after
strip. -/
def checkNote (entries : List (String × JVal)) : Except String Unit :=
  match jget entries "note" with
  | some (.str note) =>
      if pyStrip note = "" then
        .error "condition.note es obligatorio y debe ser texto."
      else .ok ()
  | _ => .error "condition.note es obligatorio y debe ser texto."

/-- `set(match.keys()) - allowed_match_keys` must be empty. -/
def checkUnknownKeys (m : List (String × JVal)) : Except String Unit :=
  let unknown := (m.map Prod.fst).filter (fun k => !allowedMatchKeys.contains k)
  if !unknown.isEmpty then
    .error ("condition.match contiene claves no permitidas: [" ++
      String.intercalate ", " (sortStrings unknown) ++ "]")
  else .ok ()

/-- `any(match.get(k) for k in allowed_match_keys)`: at least one
criterion. -/
def checkHasCriterion (m : List (String × JVal)) : Except String Unit :=
  if allowedMatchKeys.any (fun k => jTruthy (jget m k)) then .ok ()
  else .error "condition.match debe tener al menos un criterio (zones/url_categories/urls/http_methods/services)."

/-- A key that, when present, must hold a list. -/
def checkListKey (m : List (String × JVal)) (key msg : String) :
    Except String Unit :=
  match jget m key with
  | none => .ok ()
  | some (.arr _) => .ok ()
  | some _ => .error msg

/-- `http_methods` must be a list of strings when present. -/
def checkHttpMethods (m : List (String × JVal)) : Except String Unit :=
  match jget m "http_methods" with
  | none => .ok ()
  | some (.arr xs) =>
      if xs.all isStrVal then .ok ()
      else .error "condition.match.http_methods debe ser lista de strings (GET/POST...)."
  | some _ => .error "condition.match.http_methods debe ser lista de strings (GET/POST...)."

/-- `services` must be a list whose items pass `validateService`. -/
def checkServices (m : List (String × JVal)) : Except String Unit :=
  match jget m "services" with
  | none => .ok ()
  | some (.arr xs) => validateServices xs
  | some _ => .error "condition.match.services debe ser lista."

/-- The `days` sub-check of the `time` block. -/
def checkDays (t : List (String × JVal)) : Except String Unit :=
  match jget t "days" with
  | some (.arr days) =>
      if days.isEmpty then
        .error "condition.time.days debe ser lista no vacia."
      else if days.all (fun d => match d with
            | .str s => DAYS.contains s
            | _ => false) then .ok ()
      else .error "condition.time.days invalido (use MON..SUN)."
  | _ => .error "condition.time.days debe ser lista no vacia."

/-- Note: `validate_rule_condition` checks only that `start` and `end`
match the `HH:MM` pattern; it performs no comparison between them. -/
def checkStartEnd (t : List (String × JVal)) : Except String Unit :=
  if jvalTimeOk (jget t "start") && jvalTimeOk (jget t "end") then .ok ()
  else .error "condition.time.start y end deben tener formato HH:MM."

def checkTz (t : List (String × JVal)) : Except String Unit :=
  match jget t "tz" with
  | some (.str tz) =>
      if pyStrip tz = "" then
        .error "condition.time.tz es obligatorio (ej: America/Guayaquil)."
      else .ok ()
  | _ => .error "condition.time.tz es obligatorio (ej: America/Guayaquil)."

/-- The optional `time` block: absent or `None` passes; otherwise it must
be a dict and its `days`, `start`/`end` and `tz` checks run in order. -/
def checkTime (entries : List (String × JVal)) : Except String Unit :=
  match jget entries "time" with
  | none => .ok ()
  | some .null => .ok ()
  | some (.obj t) => seqE (checkDays t) (seqE (checkStartEnd t) (checkTz t))
  | some _ => .error "condition.time debe ser un objeto JSON."

/-- `validate_rule_condition` (`control/models.py`, lines 210-286): the
sequential, short-circuiting validation of a condition document.  A raised
`ValidationError` is modelled as `Except.error` of its message. -/
def validate_rule_condition (condition : JVal) : Except String Unit :=
  match condition with
  | .obj entries =>
      seqE (checkVersion entries) (seqE (checkNote entries)
        (match jget entries "match" with
         | some (.obj m) =>
             seqE (checkUnknownKeys m) (seqE (checkHasCriterion m)
               (seqE (checkListKey m "zones"
                        "condition.match.zones debe ser lista de zone_id.")
                 (seqE (checkListKey m "url_categories"
                          "condition.match.url_categories debe ser lista de category_id.")
                   (seqE (checkListKey m "urls"
                            "condition.match.urls debe ser lista de strings (dominios/urls).")
                     (seqE (checkHttpMethods m)
                       (seqE (checkServices m) (checkTime entries)))))))
         | _ => .error "condition.match es obligatorio y debe ser un objeto JSON."))
  | _ => .error "condition debe ser un objeto JSON (dict)."

/-- The shape constraint the validator imposes on one `services` item,
as a boolean predicate (used to state claims about `validateService`). -/
def serviceOk (s : JVal) : Bool :=
  match s with
  | .obj e =>
      (match jget e "protocol" with
       | some (.str p) => p = "TCP" || p = "UDP"
       | _ => false) &&
      (match jget e "port" with
       | some (.num n) => 1 ≤ n && n ≤ 65535
       | _ => false)
  | _ => false

/-- The value shape `validate_rule_condition` requires of an allowed
`match` key: a list for `zones`, `url_categories` and `urls`; a list of
strings for `http_methods`; a list of valid service records for
`services`. -/
def wellShapedMatchVal (k : String) (v : JVal) : Bool :=
  match k, v with
  | "http_methods", .arr xs => xs.all isStrVal
  | "services", .arr xs => xs.all serviceOk
  | _, .arr _ => true
  | _, _ => false

/-- A condition document whose only non-constant parts are the `start` and
`end` strings of the `time` block; every other field is valid. -/
def mkTimedDoc (s e : String) : JVal :=
  .obj [("version", .num 1), ("note", .str "bloqueo nocturno"),
    ("match", .obj [("urls", .arr [.str "facebook.com"])]),
    ("time", .obj [("days", .arr [.str "MON"]), ("start", .str s),
      ("end", .str e), ("tz", .str "America/Guayaquil")])]

/-- Concrete condition document whose `match` is present but every
allowed key is absent or empty (`urls` is the empty list). -/
def emptyMatchDoc : List (String × JVal) :=
  [("version", .num 1), ("note", .str "auditoria"),
   ("match", .obj [("urls", .arr [])])]

/-- Concrete condition document with exactly one populated `match` key. -/
def singleMatchDoc : List (String × JVal) :=
  [("version", .num 1), ("note", .str "auditoria"),
   ("match", .obj [("urls", .arr [.str "facebook.com"])])]

-- -------------------------------------------------------------------
-- Event classifier (`events/management/commands/import_squid_accesslog.py`)
-- -------------------------------------------------------------------

/-- `Verdict` (`control/models.py`). -/
inductive Verdict where
  | ALLOW | DENY
deriving DecidableEq, Repr

/-- `CacheStatus` (`events/models.py`). -/
inductive CacheStatus where
  | HIT | MISS | BYPASS | EXPIRED | REVALIDATED
deriving DecidableEq, Repr

/-- Python substring containment `sub in s`. -/
def pyIn (sub s : String) : Bool := decide (sub.data <:+: s.data)

/-- The classification block of `Command.handle` (lines 118-137): verdict,
block reason and cache status derived from the split status tag. -/
structure Classification where
  verdict : Verdict
  block_reason : String
  cache_status : Option CacheStatus
deriving DecidableEq, Repr

/-- Lines 120-137 of the importer: DENY iff the tag contains `DENIED`
(with the tag as block reason), and the HIT/MISS/BYPASS/EXPIRED/REVALIDATED
substring chain for the cache status. -/
def classifyStatusTag (left : String) : Classification :=
  { verdict := if pyIn "DENIED" left then .DENY else .ALLOW
    block_reason := if pyIn "DENIED" left then left else ""
    cache_status :=
      if pyIn "HIT" left then some .HIT
      else if pyIn "MISS" left then some .MISS
      else if pyIn "BYPASS" left then some .BYPASS
      else if pyIn "EXPIRED" left then some .EXPIRED
      else if pyIn "REVALIDATED" left then some .REVALIDATED
      else none }

-- -------------------------------------------------------------------
-- Startup account bootstrap (`accounts/apps.py`, `AccountsConfig.ready`)
-- -------------------------------------------------------------------

/-- A row of the Django auth user table, as far as `ready` touches it. -/
structure AuthUser where
  username : String
  email : String
  password : String
  is_superuser : Bool
deriving DecidableEq, Repr

/-- The superuser `ready` provisions. -/
def bootstrapAdmin : AuthUser :=
  { username := "admin", email := "admin@example.com",
    password := "Admin123!", is_superuser := true }

/-- `AccountsConfig.ready` (lines 16-29): when startup succeeds
(`startupOk`, i.e. no exception is raised by the ORM), create the
hardcoded superuser unless a user named `admin` already exists; any
exception leaves the table unchanged. -/
def accounts_ready (users : List AuthUser) (startupOk : Bool) :
    List AuthUser :=
  if !startupOk then users
  else if users.any (fun u => u.username = "admin") then users
  else users ++ [bootstrapAdmin]

-- -------------------------------------------------------------------
-- Rule write path (`control/views.py` `rule_create`, `control/models.py`
-- `Rule`)
-- -------------------------------------------------------------------

/-- Python exceptions distinguished by the `rule_create` view. -/
inductive PyExc where
  | validationError (msg : String)
  | valueError
  | integrityError
  | typeError
deriving DecidableEq, Repr

/-- Leading digits parsed as a natural number; `none` unless the list is
non-empty and all digits. -/
def digitsToNat? (l : List Char) : Option Nat :=
  if l ≠ [] ∧ l.all Char.isDigit then
    some (l.foldl (fun a c => a * 10 + (c.toNat - 48)) 0)
  else none

/-- Python `int(s)` on a string: strip whitespace, optional sign, digits;
anything else raises (modelled as `none`). -/
def pyInt? (s : String) : Option Int :=
  match (pyStrip s).data with
  | [] => none
  | c :: rest =>
      if c = '+' then (digitsToNat? rest).map Int.ofNat
      else if c = '-' then (digitsToNat? rest).map (fun n => -(n : Int))
      else (digitsToNat? (c :: rest)).map Int.ofNat

/-- A stored `Rule` row, as far as the priority-uniqueness claims need. -/
structure StoredRule where
  policy : Int
  priority : Int
  enabled : Bool
  is_delete : Bool
deriving DecidableEq, Repr

/-- A live (non-soft-deleted) rule with the given policy and priority
exists: the scope of `rule_policy_priority_active_uniq`
(`UniqueConstraint(fields=["policy", "priority"], condition=Q(is_delete=False))`). -/
def liveConflict (store : List StoredRule) (policy priority : Int) : Bool :=
  store.any (fun s => !s.is_delete && s.policy == policy &&
    s.priority == priority)

/-- Inserting a rule row under the partial unique constraint
`rule_policy_priority_active_uniq`: a second live row at an occupied
(policy, priority) is rejected with `IntegrityError`. -/
def dbInsertRule (store : List StoredRule) (r : StoredRule) :
    Except PyExc (List StoredRule) :=
  if !r.is_delete && liveConflict store r.policy r.priority then
    .error .integrityError
  else .ok (store ++ [r])

/-- No two live rules of the same policy share a priority value. -/
def priorityInvariant (store : List StoredRule) : Prop :=
  List.Pairwise (fun a b => a.is_delete = false → b.is_delete = false →
    a.policy = b.policy → a.priority ≠ b.priority) store

/-- The POST fields `rule_create` reads. -/
structure PostData where
  policy : Option String
  url_category : Option String
  note : Option String
  action : Option String
  priority : Option String
  enabled : Option String
  start : Option String
  ending : Option String
  tz : Option String
  days : List String
deriving Repr

/-- The keyword-argument names `rule_create` passes to `Rule(...)`
(`views.py` lines 213-223). -/
def rule_create_kwargs : List String :=
  ["policy_id", "url_category_id", "note", "action", "priority",
   "enabled", "schedule_start", "schedule_end", "schedule_tz"]

/-- The names accepted by the canonical `Rule` model's constructor
(`control/models.py` lines 289-301): its concrete fields, the foreign-key
attname `policy_id`, and the soft-delete base fields. -/
def ruleConstructorFields : List String :=
  ["rule_id", "policy", "policy_id", "condition", "action", "priority",
   "enabled", "created_at", "is_delete", "deleted_at"]

/-- `Model(**kwargs)` in Django: raises `TypeError` when a keyword is not
a settable field of the model. -/
def djangoInit (fieldNames kwargNames : List String) : Except PyExc Unit :=
  if kwargNames.all (fun k => fieldNames.contains k) then .ok ()
  else .error .typeError

/-- `_required_int` (`views.py` lines 129-136). -/
def required_int (raw : Option String) (label : String) :
    Except PyExc Int :=
  match raw with
  | none => .error (.validationError ("Debes seleccionar " ++ label ++ "."))
  | some s =>
      if s = "" then
        .error (.validationError ("Debes seleccionar " ++ label ++ "."))
      else
        match pyInt? s with
        | some n => .ok n
        | none => .error (.validationError (label ++ " invalida."))

/-- The duplicate-priority message of `rule_create`'s
`except (ValueError, IntegrityError)` handler. -/
def duplicateMsg : String :=
  "Ya existe una regla con la misma politica y prioridad. Cambia la prioridad o edita la regla existente."

/-- Result of one POST to the `rule_create` view. -/
inductive CreateOutcome where
  | created (store : List StoredRule)
  | formError (msg : String)
  | uncaught (e : PyExc)
deriving DecidableEq, Repr

/-- The view's exception handling: `except ValidationError` shows the
humanized message; `except (ValueError, IntegrityError)` shows the
duplicate-priority message; any other exception propagates. -/
def catchException (e : PyExc) : CreateOutcome :=
  match e with
  | .validationError msg => .formError msg
  | .valueError => .formError duplicateMsg
  | .integrityError => .formError duplicateMsg
  | .typeError => .uncaught .typeError

/-- The `rule_create` view (`views.py` lines 208-268) on a POST request:
parse the two required ids, evaluate the constructor arguments (where
`int(request.POST.get("priority", "10"))` can raise `ValueError`), then
construct `Rule(...)` with the flat-schema keyword names and, were the
construction to succeed, save under the partial unique constraint. -/
def rule_create (post : PostData) (store : List StoredRule) :
    CreateOutcome :=
  match required_int post.policy "una politica" with
  | .error e => catchException e
  | .ok policyId =>
  match required_int post.url_category "una categoria URL" with
  | .error e => catchException e
  | .ok _categoryId =>
  match pyInt? (post.priority.getD "10") with
  | none => catchException .valueError
  | some priorityVal =>
  match djangoInit ruleConstructorFields rule_create_kwargs with
  | .error e => catchException e
  | .ok _ =>
      match dbInsertRule store ⟨policyId, priorityVal,
          post.enabled == some "on", false⟩ with
      | .error e => catchException e
      | .ok store2 => .created store2

-- -------------------------------------------------------------------
-- Decimal rendering (Python `str(int)`) and shared list splitters
-- -------------------------------------------------------------------

/-- The character of one decimal digit. -/
def digitChar (d : Nat) : Char :=
  match d with
  | 0 => '0' | 1 => '1' | 2 => '2' | 3 => '3' | 4 => '4'
  | 5 => '5' | 6 => '6' | 7 => '7' | 8 => '8' | 9 => '9'
  | _ => '*'

/-- Decimal digits of `n`, most significant first; `fuel` bounds the
recursion (any `fuel > n` is enough). -/
def natDigitsAux : Nat → Nat → List Char
  | 0, _ => []
  | fuel + 1, n =>
      if n < 10 then [digitChar n]
      else natDigitsAux fuel (n / 10) ++ [digitChar (n % 10)]

/-- Python `str(n)` for a non-negative integer. -/
def natRepr (n : Nat) : String := ⟨natDigitsAux (n + 1) n⟩

/-- Split a list at the first occurrence of `c`
(Python `s.split(c, 1)` / `s.partition(c)`): `none` when `c` is absent. -/
def splitOnceChar (c : Char) : List Char → Option (List Char × List Char)
  | [] => none
  | x :: xs =>
      if x = c then some ([], xs)
      else (splitOnceChar c xs).map (fun p => (x :: p.1, p.2))

/-- Longest prefix free of the stop characters, and the remainder. -/
def spanNot (stops : List Char) : List Char → List Char × List Char
  | [] => ([], [])
  | x :: xs =>
      if x ∈ stops then ([], x :: xs)
      else
        let p := spanNot stops xs
        (x :: p.1, p.2)

/-- Python `str.upper()` (ASCII suffices for HTTP method tokens). -/
def pyUpper (s : String) : String := ⟨s.data.map Char.toUpper⟩

-- -------------------------------------------------------------------
-- URL decomposition (`parse_url` in `import_squid_accesslog.py`, over
-- the standard library's `urlparse`)
-- -------------------------------------------------------------------

/-- Characters admissible in a URL scheme after the first
(`urllib.parse.scheme_chars`). -/
def isSchemeChar (c : Char) : Bool :=
  c.isAlphanum || c = '+' || c = '-' || c = '.'

/-- The scheme/netloc/path/query/fragment split of
`urllib.parse.urlsplit` (parameters of the last path segment, an
`urlparse` extra, do not occur in the URLs treated here). -/
structure UrlSplit where
  scheme : String
  netloc : String
  path : String
  query : String
  fragment : String
deriving DecidableEq, Repr

/-- `urlsplit(raw)`: detach a valid scheme before the first `:`
(lower-cased), a `//`-introduced netloc running to the first `/`, `?` or
`#`, then the fragment after the first `#` and the query after the first
`?`. -/
def pyUrlsplit (raw : String) : UrlSplit :=
  let l := raw.data
  let sr : List Char × List Char :=
    match splitOnceChar ':' l with
    | some (pre, rest) =>
        if pre ≠ [] ∧ pre.head?.elim false Char.isAlpha ∧
            pre.all isSchemeChar then
          (pre.map Char.toLower, rest)
        else ([], l)
    | none => ([], l)
  let nr : List Char × List Char :=
    match sr.2 with
    | '/' :: '/' :: rest =>
        let p := spanNot ['/', '?', '#'] rest
        (p.1, p.2)
    | other => ([], other)
  let fr : List Char × List Char :=
    match splitOnceChar '#' nr.2 with
    | some (a, b) => (a, b)
    | none => (nr.2, [])
  let pq : List Char × List Char :=
    match splitOnceChar '?' fr.1 with
    | some (a, b) => (a, b)
    | none => (fr.1, [])
  ⟨⟨sr.1⟩, ⟨nr.1⟩, ⟨pq.1⟩, ⟨pq.2⟩, ⟨fr.2⟩⟩

/-- The host-and-port part of a netloc: what follows the last `@`
(`netloc.rpartition('@')`); bracketed IPv6 hosts do not occur in the URLs
treated here. -/
def hostinfo (netloc : List Char) : List Char :=
  (netloc.reverse.takeWhile (fun c => c ≠ '@')).reverse

/-- `p.hostname`: the part of the host-info before the first `:`,
lower-cased; `None` when empty. -/
def pyHostname (netloc : List Char) : Option String :=
  let h := (hostinfo netloc).takeWhile (fun c => c ≠ ':')
  if h.isEmpty then none else some ⟨h.map Char.toLower⟩

/-- `p.port`: the digits after the first `:` of the host-info, as a
number when well-formed (absent or empty otherwise; an ill-formed port
raises in Python and does not occur in the URLs treated here). -/
def pyPort (netloc : List Char) : Option Nat :=
  match splitOnceChar ':' (hostinfo netloc) with
  | none => none
  | some (_, p) =>
      match digitsToNat? p with
      | some n => if n ≤ 65535 then some n else none
      | none => none

/-- `parse_url` (`import_squid_accesslog.py` lines 38-45): scheme defaults
to `http`, host falls back to the raw token, port to 443 for https and 80
otherwise (`p.port or ...`, so an explicit port 0 also falls back), path
to `/`, query to the empty string. -/
def parse_url (raw : String) : String × String × Nat × String × String :=
  let p := pyUrlsplit raw
  let scheme := if p.scheme = "" then "http" else p.scheme
  let host := match pyHostname p.netloc.data with
    | some h => h
    | none => raw
  let dfl := if scheme = "https" then 443 else 80
  let port := match pyPort p.netloc.data with
    | some n => if n = 0 then dfl else n
    | none => dfl
  let path := if p.path = "" then "/" else p.path
  (scheme, host, port, path, p.query)

/-- The decomposition the specification describes, stated directly on the
components of a well-formed absolute URL (`specUrlDecompose` follows the
spec's words; claims compare `parse_url` against it): scheme as given
(its default applies only when absent), the written host, the explicit
port or 443/80 by scheme, the written path or `/`, the written query or
empty. -/
def specUrlDecompose (scheme host : String) (port : Option Nat)
    (path query : String) : String × String × Nat × String × String :=
  (scheme, host,
   (match port with
    | some n => n
    | none => if scheme = "https" then 443 else 80),
   (if path = "" then "/" else path), query)

/-- The raw URL token assembled from its components. -/
def mkUrlToken (scheme host : String) (port : Option Nat)
    (path query : String) : String :=
  scheme ++ "://" ++ host ++
    (match port with
     | some n => ":" ++ natRepr n
     | none => "") ++
    path ++ (if query = "" then "" else "?" ++ query)

/-- Hostname characters as written in access-log URLs: the claim's domain
restricts hosts to names that standard parsing leaves unchanged. -/
def isHostChar (c : Char) : Bool :=
  c.isLower || c.isDigit || c = '.' || c = '-'

/-- Path characters that neither close the netloc prematurely nor start
the query/fragment/params. -/
def isPathChar (c : Char) : Bool :=
  !(c = '?' || c = '#' || c = ';')

def isQueryChar (c : Char) : Bool := !(c = '#')

-- -------------------------------------------------------------------
-- Log line parsing (`SQUID_RE`, `split_squid_status`) and the ingestion
-- pipeline (`Command.handle`)
-- -------------------------------------------------------------------

/-- Whitespace tokenisation (the `\S+`/`\s+` alternation of `SQUID_RE`):
maximal runs of non-whitespace characters. -/
def splitWsAux : List Char → List Char → List (List Char)
  | [], acc => if acc.isEmpty then [] else [acc.reverse]
  | c :: rest, acc =>
      if isPySpace c then
        if acc.isEmpty then splitWsAux rest []
        else acc.reverse :: splitWsAux rest []
      else splitWsAux rest (c :: acc)

def tokensOf (s : String) : List String :=
  (splitWsAux s.data []).map (fun l => ⟨l⟩)

/-- `\d+\.\d+`: the timestamp token, digits, one dot, digits. -/
def isTsToken (s : String) : Bool :=
  match splitOnceChar '.' s.data with
  | some (a, b) => !a.isEmpty && a.all Char.isDigit &&
      !b.isEmpty && b.all Char.isDigit
  | none => false

def isDigitsToken (s : String) : Bool :=
  !s.data.isEmpty && s.data.all Char.isDigit

/-- The ten captured fields of `SQUID_RE`. -/
structure ParsedLine where
  ts : String
  elapsed : Nat
  client_ip : String
  status : String
  bytesOut : Nat
  method : String
  url : String
  user : String
  hier : String
  mime : String
deriving DecidableEq, Repr

/-- `SQUID_RE.match(line)` on an already-stripped line: ten
whitespace-separated tokens (further trailing tokens are ignored — the
pattern is not end-anchored), where the first must be `\d+\.\d+` and the
second and fifth all digits.  `none` models a failed match. -/
def parseSquidLine (line : String) : Option ParsedLine :=
  match tokensOf line with
  | ts :: elapsed :: client :: status :: bytes :: method :: url ::
      user :: hier :: mime :: _ =>
      if isTsToken ts && isDigitsToken elapsed && isDigitsToken bytes then
        some { ts := ts,
               elapsed := (digitsToNat? elapsed.data).getD 0,
               client_ip := client, status := status,
               bytesOut := (digitsToNat? bytes.data).getD 0,
               method := method, url := url, user := user,
               hier := hier, mime := mime }
      else none
  | _ => none

/-- `split_squid_status` (lines 26-35): the tag before the first `/`, and
the numeric sub-code after it when it parses as an int. -/
def split_squid_status (status : String) : String × Option Int :=
  match splitOnceChar '/' status.data with
  | none => (status, none)
  | some (l, r) => (⟨l⟩, pyInt? ⟨r⟩)

/-- The natural uniqueness key of the `Url` reference row. -/
structure UrlKey where
  scheme : String
  host : String
  port : Nat
  path : String
  query : String
deriving DecidableEq, Repr

/-- One `Request` row as built by the importer (fields it never varies,
such as `client_port=0`, are omitted). -/
structure EventRow where
  ts : String
  client_ip : String
  http_status : Option Int
  bytes_out : Nat
  elapsed_ms : Nat
  cache_status : Option CacheStatus
  verdict : Verdict
  block_reason : String
  method : String
  url : UrlKey
deriving DecidableEq, Repr

/-- The live rows the importer touches: `HttpMethod` and `Url` reference
rows (`get_or_create`) and the `requests` table. -/
structure EventsDb where
  methods : List String
  urls : List UrlKey
  requests : List EventRow
deriving DecidableEq, Repr

/-- The per-line body of the import loop (lines 102-164): parse, classify,
resolve-or-create the method and URL rows, append one event row.  `none`
is a failed `SQUID_RE` match (the line is counted as skipped). -/
def processLine (db : EventsDb) (line : String) : Option EventsDb :=
  match parseSquidLine line with
  | none => none
  | some p =>
      let st := split_squid_status p.status
      let cls := classifyStatusTag st.1
      let methodTxt := pyUpper p.method
      let db1 := if db.methods.contains methodTxt then db
        else { db with methods := db.methods ++ [methodTxt] }
      let u := parse_url p.url
      let uk : UrlKey := ⟨u.1, u.2.1, u.2.2.1, u.2.2.2.1, u.2.2.2.2⟩
      let db2 := if db1.urls.contains uk then db1
        else { db1 with urls := db1.urls ++ [uk] }
      some { db2 with requests := db2.requests ++
        [⟨p.ts, p.client_ip, st.2, p.bytesOut, p.elapsed,
          cls.cache_status, cls.verdict, cls.block_reason, methodTxt, uk⟩] }

/-- The batch loop inside `transaction.atomic()`: processes the lines in
order, counting inserted and skipped.  `failAfter = some k` models a
storage failure while inserting the k-th event row; `none` as result is
the aborted (and therefore fully rolled-back) transaction. -/
def processBatch (failAfter : Option Nat) :
    List String → EventsDb → Nat → Nat → Option (EventsDb × Nat × Nat)
  | [], db, inserted, skipped => some (db, inserted, skipped)
  | line :: rest, db, inserted, skipped =>
      match processLine db line with
      | none => processBatch failAfter rest db inserted (skipped + 1)
      | some db1 =>
          if failAfter = some (inserted + 1) then none
          else processBatch failAfter rest db1 (inserted + 1) skipped

/-- `f.readline()` at a character position: up to and including the first
newline, or to the end of file (log bytes are modelled as characters;
squid access logs are ASCII and the file is opened with
`errors="ignore"`). -/
def readline (content : List Char) (pos : Nat) : List Char :=
  match splitOnceChar '\n' (content.drop pos) with
  | some (a, _) => a ++ ['\n']
  | none => content.drop pos

/-- The bounded read loop (lines 84-92): up to `fuel` lines starting at
`pos`, each stripped; stops early at end of file.  Also returns
`f.tell()` after the loop. -/
def readLinesAux (content : List Char) : Nat → Nat → List String × Nat
  | 0, pos => ([], pos)
  | fuel + 1, pos =>
      let line := readline content pos
      if line.isEmpty then ([], pos)
      else
        let r := readLinesAux content fuel (pos + line.length)
        (pyStrip ⟨line⟩ :: r.1, r.2)

def readLines (content : List Char) (pos limit : Nat) :
    List String × Nat :=
  readLinesAux content limit pos

/-- Offset loading (lines 65-70):
`int(open(statefile).read().strip() or "0")`, any exception giving 0. -/
def loadOffset (stateContent : Option String) : Int :=
  match stateContent with
  | none => 0
  | some s =>
      let t := pyStrip s
      match pyInt? (if t = "" then "0" else t) with
      | some n => n
      | none => 0

/-- The rotation guard (lines 73-76): an offset beyond the current file
size is forced back to 0 before seeking. -/
def effectiveOffset (stateContent : Option String) (size : Nat) : Int :=
  let offset := loadOffset stateContent
  if offset > (size : Int) then 0 else offset

/-- The world one ingestion run reads and writes: the log file (absent,
unreadable, or its content), the offset state file's content, and the
database. -/
structure IngestEnv where
  logContent : Option String
  logReadable : Bool
  stateContent : Option String
  db : EventsDb
deriving Repr

/-- Observable outcome of one run of the import command. -/
inductive RunResult where
  | missingLog
  | permissionDenied
  | noNewLines
  | txAborted
  | crashed
  | committed (inserted skipped : Nat) (newOffset : Nat)
deriving DecidableEq, Repr

/-- One run of `import_squid_accesslog` (`Command.handle`): load the
offset, stat the file (missing / unreadable abort untouched), apply the
rotation reset, read a bounded batch, return untouched when no lines,
otherwise process the batch inside one transaction and, only after it
commits, overwrite the state file with the new offset.  A negative stored
offset would make `f.seek` raise (`crashed`); the transaction aborting
leaves database and state file unchanged. -/
def runIngest (limit : Nat) (failAfter : Option Nat) (env : IngestEnv) :
    RunResult × IngestEnv :=
  match env.logContent with
  | none => (.missingLog, env)
  | some content =>
      if !env.logReadable then (.permissionDenied, env)
      else
        let size := content.data.length
        let offset := effectiveOffset env.stateContent size
        if offset < 0 then (.crashed, env)
        else
          let r := readLines content.data offset.toNat limit
          if r.1.isEmpty then (.noNewLines, env)
          else
            match processBatch failAfter r.1 env.db 0 0 with
            | none => (.txAborted, env)
            | some (db1, inserted, skipped) =>
                (.committed inserted skipped r.2,
                 { env with db := db1,
                            stateContent := some (natRepr r.2) })

/-- A store holding one live enabled rule of policy 1 at priority 10. -/
def c3Store : List StoredRule := [⟨1, 10, true, false⟩]

/-- A POST targeting policy 1 at the already-occupied priority 10. -/
def c3Post : PostData :=
  ⟨some "1", some "2", some "nota", some "DENY", some "10", some "on",
   none, none, some "America/Guayaquil", []⟩

/-- The spec's first sample access-log line (DENY, https, port 443). -/
def sampleLine1 : String :=
  "1700000000.123 150 10.0.0.5 TCP_DENIED/403 512 GET https://facebook.com/ - HIER_NONE/- text/html"

/-- The spec's second sample access-log line (ALLOW, HIT, query x=1). -/
def sampleLine2 : String :=
  "1700000001.000 20 10.0.0.6 TCP_HIT/200 2048 GET http://example.com/a?x=1 - HIER_DIRECT/1.2.3.4 text/html"

/-- A two-line log file. -/
def sampleLog : String := sampleLine1 ++ "\n" ++ sampleLine2 ++ "\n"

/-- A fresh ingestion world over the two-line log: no state file yet,
empty database. -/
def freshEnv : IngestEnv := ⟨some sampleLog, true, none, ⟨[], [], []⟩⟩

/-- A world whose persisted offset (500) exceeds the log size (202):
the rotation/truncation situation. -/
def rotEnv : IngestEnv := ⟨some sampleLog, true, some "500", ⟨[], [], []⟩⟩

-- ===================================================================
-- Helper lemmas
-- ===================================================================

theorem validateService_of_serviceOk (s : JVal) (h : serviceOk s = true) :
    validateService s = .ok () := by
  unfold serviceOk at h
  unfold validateService
  cases s <;> simp_all
  rename_i e
  rcases h with ⟨h1, h2⟩
  cases hp : jget e "protocol" <;> simp [hp] at h1 ⊢
  case some w =>
    cases w <;> simp_all
    cases hq : jget e "port" <;> simp [hq] at h2 ⊢
    case some u =>
      cases u <;> simp_all

theorem validateServices_of_all (xs : List JVal)
    (h : xs.all serviceOk = true) : validateServices xs = .ok () := by
  induction xs with
  | nil => rfl
  | cons a rest ih =>
    simp only [List.all_cons, Bool.and_eq_true] at h
    simp [validateServices, validateService_of_serviceOk a h.1, ih h.2]

theorem data_prefix_of_append (pre a b : String)
    (h : pre.data <+: a.data) : pre.data <+: (a ++ b).data := by
  rw [String.data_append]
  exact h.trans (List.prefix_append _ _)

-- ===================================================================
-- C1
-- ===================================================================

/-- C1 counterexample: a condition document whose `time` block has
well-formed `start` and `end` with `start == end` ("10:00" both) — the
claim says `validate_rule_condition` must reject it, but validation
succeeds. -/
theorem C1_counterexample_start_not_before_end :
    isTimeHHMM "10:00" = true ∧
    validate_rule_condition (mkTimedDoc "10:00" "10:00") = .ok () :=
  ⟨rfl, rfl⟩

/-- C1 amended: `validate_rule_condition` checks only that `start` and
`end` match the `HH:MM` pattern; it performs no `start < end` comparison,
so any pair of well-formed times — equal, increasing or decreasing — is
accepted when the rest of the document is valid. -/
theorem C1_amended_time_range_unchecked (s e : String)
    (hs : isTimeHHMM s = true) (he : isTimeHHMM e = true) :
    validate_rule_condition (mkTimedDoc s e) = .ok () := by
  simp [mkTimedDoc, validate_rule_condition, jget, jvalTimeOk, seqE,
    checkVersion, checkNote, checkUnknownKeys, checkHasCriterion,
    checkListKey, checkHttpMethods, checkServices, checkTime, checkDays,
    checkStartEnd, checkTz, hs, he, pyStrip, isPySpace, jTruthy,
    allowedMatchKeys, DAYS, validateServices]

/-- Witness for C1's amended theorem at `start` later than `end`. -/
theorem C1_amended_time_range_unchecked_witness :
    validate_rule_condition (mkTimedDoc "23:00" "08:00") = .ok () :=
  C1_amended_time_range_unchecked "23:00" "08:00" rfl rfl

-- ===================================================================
-- C2
-- ===================================================================

/-- C2: once the version and note checks pass, a document whose `match`
is missing, not a record, or has all five allowed keys absent or empty is
rejected with an error naming `condition.match`; and a document with
version 1, a non-blank note, no `time` block and exactly one allowed
`match` key holding a non-empty well-shaped value validates
successfully. -/
theorem C2_match_presence_validation
    (en₁ en₂ : List (String × JVal)) (n₁ n₂ k : String) (v : JVal)
    (hv₁ : jget en₁ "version" = some (.num 1))
    (hn₁ : jget en₁ "note" = some (.str n₁)) (hns₁ : pyStrip n₁ ≠ "")
    (hbad : jget en₁ "match" = none ∨
            (∃ w, jget en₁ "match" = some w ∧ ∀ m, w ≠ .obj m) ∨
            (∃ m, jget en₁ "match" = some (.obj m) ∧
                  ∀ key ∈ allowedMatchKeys, jTruthy (jget m key) = false))
    (hv₂ : jget en₂ "version" = some (.num 1))
    (hn₂ : jget en₂ "note" = some (.str n₂)) (hns₂ : pyStrip n₂ ≠ "")
    (hm₂ : jget en₂ "match" = some (.obj [(k, v)]))
    (hk : k ∈ allowedMatchKeys) (htr : jTruthy (some v) = true)
    (hshape : wellShapedMatchVal k v = true)
    (ht₂ : jget en₂ "time" = none ∨ jget en₂ "time" = some .null) :
    (∃ msg, validate_rule_condition (.obj en₁) = .error msg ∧
            "condition.match".data <+: msg.data) ∧
    validate_rule_condition (.obj en₂) = .ok () := by
  have hver₁ : checkVersion en₁ = .ok () := by simp [checkVersion, hv₁]
  have hnote₁ : checkNote en₁ = .ok () := by
    simp only [checkNote, hn₁]
    rw [if_neg hns₁]
  have hver₂ : checkVersion en₂ = .ok () := by simp [checkVersion, hv₂]
  have hnote₂ : checkNote en₂ = .ok () := by
    simp only [checkNote, hn₂]
    rw [if_neg hns₂]
  constructor
  · rcases hbad with hnone | ⟨w, hw, hwobj⟩ | ⟨m, hm, hfalsy⟩
    · simp only [validate_rule_condition, hver₁, hnote₁, hnone, seqE]
      exact ⟨_, rfl, by decide⟩
    · cases w with
      | obj m => exact absurd rfl (hwobj m)
      | null =>
        simp only [validate_rule_condition, hver₁, hnote₁, hw, seqE]
        exact ⟨_, rfl, by decide⟩
      | bool b =>
        simp only [validate_rule_condition, hver₁, hnote₁, hw, seqE]
        exact ⟨_, rfl, by decide⟩
      | num n =>
        simp only [validate_rule_condition, hver₁, hnote₁, hw, seqE]
        exact ⟨_, rfl, by decide⟩
      | str s =>
        simp only [validate_rule_condition, hver₁, hnote₁, hw, seqE]
        exact ⟨_, rfl, by decide⟩
      | arr l =>
        simp only [validate_rule_condition, hver₁, hnote₁, hw, seqE]
        exact ⟨_, rfl, by decide⟩
    · have hanyf : allowedMatchKeys.any (fun key => jTruthy (jget m key)) = false :=
        List.any_eq_false.mpr (fun x hx => by simp [hfalsy x hx])
      by_cases hu : ((m.map Prod.fst).filter
          (fun key => !allowedMatchKeys.contains key)).isEmpty
      · have hcu : checkUnknownKeys m = .ok () := by
          unfold checkUnknownKeys
          simp only [hu]
          rfl
        have hcrit : checkHasCriterion m =
            .error "condition.match debe tener al menos un criterio (zones/url_categories/urls/http_methods/services)." := by
          unfold checkHasCriterion
          rw [if_neg (by simp [hanyf])]
        simp only [validate_rule_condition, hver₁, hnote₁, hm, hcu, hcrit,
          seqE]
        exact ⟨_, rfl, by decide⟩
      · have hcu : checkUnknownKeys m = .error
            ("condition.match contiene claves no permitidas: [" ++
              String.intercalate ", " (sortStrings ((m.map Prod.fst).filter
                (fun key => !allowedMatchKeys.contains key))) ++ "]") := by
          unfold checkUnknownKeys
          simp only [hu]
          rfl
        simp only [validate_rule_condition, hver₁, hnote₁, hm, hcu, seqE]
        refine ⟨_, rfl, ?_⟩
        exact data_prefix_of_append _ _ _
          (data_prefix_of_append _ _ _ (by decide))
  · simp only [validate_rule_condition, hver₂, hnote₂, hm₂, seqE]
    simp only [allowedMatchKeys, List.mem_cons, List.not_mem_nil,
      or_false] at hk
    rcases hk with rfl | rfl | rfl | rfl | rfl <;>
      cases v <;>
        simp_all [wellShapedMatchVal, checkUnknownKeys, checkHasCriterion,
          checkListKey, checkHttpMethods, checkServices, checkTime, seqE,
          jget, jTruthy, allowedMatchKeys, sortStrings,
          validateServices_of_all] <;>
      rcases ht₂ with h2 | h2 <;> simp [h2]

/-- Witness for C2 at two concrete documents: `emptyMatchDoc` (match
present but every criterion empty) fails with a match-related message;
`singleMatchDoc` (one populated `urls` criterion) validates. -/
theorem C2_match_presence_validation_witness :
    (∃ msg, validate_rule_condition (.obj emptyMatchDoc) = .error msg ∧
            "condition.match".data <+: msg.data) ∧
    validate_rule_condition (.obj singleMatchDoc) = .ok () :=
  C2_match_presence_validation emptyMatchDoc singleMatchDoc
    "auditoria" "auditoria" "urls" (.arr [.str "facebook.com"])
    rfl rfl (by decide)
    (Or.inr (Or.inr ⟨[("urls", .arr [])], rfl, by decide⟩))
    rfl rfl (by decide) rfl (by decide) rfl rfl (Or.inl rfl)

-- ===================================================================
-- C9
-- ===================================================================

/-- C9: `AccountsConfig.ready` creates the hardcoded superuser
(`admin` / `admin@example.com` / `Admin123!`) exactly when startup raises
no exception and no user named `admin` exists; otherwise it changes
nothing, and running it again after a successful run is a no-op, so
repeated startups provision at most one such account. -/
theorem C9_admin_bootstrap_idempotent (users : List AuthUser) :
    accounts_ready users false = users ∧
    (users.any (fun u => u.username = "admin") = true →
      accounts_ready users true = users) ∧
    (users.any (fun u => u.username = "admin") = false →
      accounts_ready users true = users ++ [bootstrapAdmin]) ∧
    (∀ b, accounts_ready (accounts_ready users true) b =
      accounts_ready users true) := by
  refine ⟨rfl, ?_, ?_, ?_⟩
  · intro h
    simp [accounts_ready, h]
  · intro h
    simp [accounts_ready, h]
  · intro b
    by_cases h : users.any (fun u => u.username = "admin") = true
    · simp [accounts_ready, h]
    · simp only [Bool.not_eq_true] at h
      simp [accounts_ready, h, bootstrapAdmin]

/-- Witness for C9 on the empty user table: the first startup creates the
admin account and a second startup leaves it alone. -/
theorem C9_admin_bootstrap_idempotent_witness :
    accounts_ready [] true = [bootstrapAdmin] ∧
    accounts_ready (accounts_ready [] true) true =
      accounts_ready [] true :=
  ⟨(C9_admin_bootstrap_idempotent []).2.2.1 rfl,
   (C9_admin_bootstrap_idempotent []).2.2.2 true⟩

-- ===================================================================
-- C4
-- ===================================================================

/-- C4: for every split status tag, the importer classifies DENY exactly
when the tag contains `DENIED` (block reason the full tag, empty on
ALLOW), and the cache outcome is the first of HIT, MISS, BYPASS, EXPIRED,
REVALIDATED occurring as a substring, `none` when none occurs — always a
total classification, never a failure. -/
theorem C4_classifier_verdict_and_cache (tag : String) :
    ((classifyStatusTag tag).verdict = .DENY ↔
      "DENIED".data <:+: tag.data) ∧
    ((classifyStatusTag tag).verdict = .DENY →
      (classifyStatusTag tag).block_reason = tag) ∧
    ((classifyStatusTag tag).verdict = .ALLOW →
      (classifyStatusTag tag).block_reason = "") ∧
    ((classifyStatusTag tag).cache_status = some .HIT ↔
      "HIT".data <:+: tag.data) ∧
    ((classifyStatusTag tag).cache_status = some .MISS ↔
      (¬ "HIT".data <:+: tag.data ∧ "MISS".data <:+: tag.data)) ∧
    ((classifyStatusTag tag).cache_status = some .BYPASS ↔
      (¬ "HIT".data <:+: tag.data ∧ ¬ "MISS".data <:+: tag.data ∧
       "BYPASS".data <:+: tag.data)) ∧
    ((classifyStatusTag tag).cache_status = some .EXPIRED ↔
      (¬ "HIT".data <:+: tag.data ∧ ¬ "MISS".data <:+: tag.data ∧
       ¬ "BYPASS".data <:+: tag.data ∧ "EXPIRED".data <:+: tag.data)) ∧
    ((classifyStatusTag tag).cache_status = some .REVALIDATED ↔
      (¬ "HIT".data <:+: tag.data ∧ ¬ "MISS".data <:+: tag.data ∧
       ¬ "BYPASS".data <:+: tag.data ∧ ¬ "EXPIRED".data <:+: tag.data ∧
       "REVALIDATED".data <:+: tag.data)) ∧
    ((classifyStatusTag tag).cache_status = none ↔
      (¬ "HIT".data <:+: tag.data ∧ ¬ "MISS".data <:+: tag.data ∧
       ¬ "BYPASS".data <:+: tag.data ∧ ¬ "EXPIRED".data <:+: tag.data ∧
       ¬ "REVALIDATED".data <:+: tag.data)) := by
  simp only [classifyStatusTag, pyIn]
  by_cases h1 : "DENIED".data <:+: tag.data <;>
    by_cases h2 : "HIT".data <:+: tag.data <;>
      by_cases h3 : "MISS".data <:+: tag.data <;>
        by_cases h4 : "BYPASS".data <:+: tag.data <;>
          by_cases h5 : "EXPIRED".data <:+: tag.data <;>
            by_cases h6 : "REVALIDATED".data <:+: tag.data <;>
              simp_all

/-- Witness for C4 on the two tags of the spec's sample lines. -/
theorem C4_classifier_verdict_and_cache_witness :
    (classifyStatusTag "TCP_DENIED").verdict = .DENY ∧
    (classifyStatusTag "TCP_DENIED").block_reason = "TCP_DENIED" ∧
    (classifyStatusTag "TCP_HIT").cache_status = some .HIT :=
  ⟨(C4_classifier_verdict_and_cache "TCP_DENIED").1.mpr (by decide),
   (C4_classifier_verdict_and_cache "TCP_DENIED").2.1
     ((C4_classifier_verdict_and_cache "TCP_DENIED").1.mpr (by decide)),
   (C4_classifier_verdict_and_cache "TCP_HIT").2.2.2.1.mpr (by decide)⟩

-- ===================================================================
-- C10
-- ===================================================================

/-- C10: the keyword names `rule_create` passes to `Rule(...)` —
`url_category_id`, `note`, `schedule_start`, `schedule_end`,
`schedule_tz` — are all foreign to the canonical `Rule` model, so every
POST that reaches the constructor ends in an uncaught `TypeError` (the
view catches only `ValidationError`, `ValueError` and `IntegrityError`),
and no POST whatsoever persists a rule through this view. -/
theorem C10_rule_create_type_error :
    (["url_category_id", "note", "schedule_start", "schedule_end",
      "schedule_tz"].all
        (fun k => !ruleConstructorFields.contains k) = true) ∧
    (∀ (post : PostData) (store : List StoredRule) (p c pr : Int),
      required_int post.policy "una politica" = .ok p →
      required_int post.url_category "una categoria URL" = .ok c →
      pyInt? (post.priority.getD "10") = some pr →
      rule_create post store = .uncaught .typeError) ∧
    (∀ (post : PostData) (store s : List StoredRule),
      rule_create post store ≠ .created s) := by
  refine ⟨by decide, ?_, ?_⟩
  · intro post store p c pr h1 h2 h3
    unfold rule_create
    rw [h1, h2, h3]
    rfl
  · intro post store s
    unfold rule_create
    cases h1 : required_int post.policy "una politica" with
    | error e => cases e <;> simp [catchException]
    | ok p =>
      cases h2 : required_int post.url_category "una categoria URL" with
      | error e => cases e <;> simp [catchException]
      | ok c =>
        cases h3 : pyInt? (post.priority.getD "10") with
        | none => simp [catchException]
        | some pr =>
          have hinit : djangoInit ruleConstructorFields
              rule_create_kwargs = .error .typeError := rfl
          simp [hinit, catchException]

/-- Witness for C10 at a fully well-formed POST against an empty store. -/
theorem C10_rule_create_type_error_witness :
    rule_create c3Post [] = .uncaught .typeError :=
  C10_rule_create_type_error.2.1 c3Post [] 1 2 10 rfl rfl rfl

-- ===================================================================
-- C3
-- ===================================================================

/-- C3 (code bug): the store invariant itself is enforced — a second live
rule at an occupied (policy, priority) is rejected by the partial unique
constraint with `IntegrityError` — but the `rule_create` view at such an
attempt dies earlier with an uncaught `TypeError` from the mismatched
`Rule(...)` constructor, so the dedicated duplicate-priority message of
its `except (ValueError, IntegrityError)` handler is never shown. -/
theorem C3_duplicate_priority_outcome :
    priorityInvariant c3Store ∧
    liveConflict c3Store 1 10 = true ∧
    dbInsertRule c3Store ⟨1, 10, true, false⟩ = .error .integrityError ∧
    rule_create c3Post c3Store = .uncaught .typeError ∧
    rule_create c3Post c3Store ≠ .formError duplicateMsg := by
  refine ⟨?_, rfl, rfl, rfl, by decide⟩
  simp [priorityInvariant, c3Store]

-- ===================================================================
-- Pipeline helper lemmas
-- ===================================================================

theorem digitChar_isDigit (d : Nat) (h : d < 10) :
    (digitChar d).isDigit = true := by
  interval_cases d <;> decide

theorem digitChar_toNat (d : Nat) (h : d < 10) :
    (digitChar d).toNat = 48 + d := by
  interval_cases d <;> decide

theorem natDigitsAux_spec (fuel : Nat) : ∀ n, n < fuel →
    natDigitsAux fuel n ≠ [] ∧
    (natDigitsAux fuel n).all Char.isDigit = true ∧
    List.foldl (fun a c => a * 10 + (c.toNat - 48)) 0
      (natDigitsAux fuel n) = n := by
  induction fuel with
  | zero => intro n h; omega
  | succ f ih =>
    intro n h
    by_cases h10 : n < 10
    · simp [natDigitsAux, h10, digitChar_isDigit n h10,
        digitChar_toNat n h10]
    · have hdiv : n / 10 < f := by
        have := Nat.div_lt_self (by omega : 0 < n) (by norm_num : 1 < 10)
        omega
      obtain ⟨h1, h2, h3⟩ := ih (n / 10) hdiv
      have hm : n % 10 < 10 := Nat.mod_lt _ (by norm_num)
      simp only [natDigitsAux, h10, if_false]
      refine ⟨by simp [h1], ?_, ?_⟩
      · simp [List.all_append, h2, digitChar_isDigit _ hm]
      · rw [List.foldl_append]
        simp [h3, digitChar_toNat _ hm]
        omega

theorem digitsToNat?_natRepr (n : Nat) :
    digitsToNat? (natRepr n).data = some n := by
  obtain ⟨h1, h2, h3⟩ := natDigitsAux_spec (n + 1) n (by omega)
  simp [natRepr, digitsToNat?, h1, h2, h3]

theorem isPySpace_of_isDigit (c : Char) (h : c.isDigit = true) :
    isPySpace c = false := by
  have hne : ∀ x : Char, x.isDigit = false → c ≠ x := fun x hx e => by
    rw [e, hx] at h
    cases h
  unfold isPySpace
  simp [hne ' ' (by decide), hne '\t' (by decide), hne '\n' (by decide),
    hne '\r' (by decide), hne '\x0b' (by decide), hne '\x0c' (by decide)]

theorem dropWhile_of_forall_false {p : Char → Bool} {l : List Char}
    (h : ∀ c ∈ l, p c = false) : l.dropWhile p = l := by
  cases l with
  | nil => rfl
  | cons a as => simp [List.dropWhile, h a (by simp)]

theorem pyStrip_of_no_space {l : List Char}
    (h : ∀ c ∈ l, isPySpace c = false) : pyStrip ⟨l⟩ = ⟨l⟩ := by
  simp only [pyStrip]
  rw [dropWhile_of_forall_false h,
    dropWhile_of_forall_false (fun c hc => h c (by simpa using hc))]
  simp

theorem natRepr_digits (n : Nat) :
    ∀ c ∈ (natRepr n).data, c.isDigit = true := by
  obtain ⟨h1, h2, h3⟩ := natDigitsAux_spec (n + 1) n (by omega)
  intro c hc
  rw [List.all_eq_true] at h2
  exact h2 c (by simpa [natRepr] using hc)

theorem pyStrip_natRepr (n : Nat) : pyStrip (natRepr n) = natRepr n :=
  pyStrip_of_no_space (fun c hc =>
    isPySpace_of_isDigit c (natRepr_digits n c hc))

theorem pyInt?_natRepr (n : Nat) : pyInt? (natRepr n) = some (n : Int) := by
  unfold pyInt?
  rw [pyStrip_natRepr]
  cases hd : (natRepr n).data with
  | nil =>
    obtain ⟨h1, _, _⟩ := natDigitsAux_spec (n + 1) n (by omega)
    exact absurd (by simpa [natRepr] using hd) h1
  | cons c rest =>
    have hcd : c.isDigit = true := natRepr_digits n c (by rw [hd]; simp)
    have hne1 : c ≠ '+' := fun e => by rw [e] at hcd; simp at hcd
    have hne2 : c ≠ '-' := fun e => by rw [e] at hcd; simp at hcd
    have := digitsToNat?_natRepr n
    rw [hd] at this
    simp [hne1, hne2, this]

theorem natRepr_ne_empty (n : Nat) : natRepr n ≠ "" := by
  obtain ⟨h1, _, _⟩ := natDigitsAux_spec (n + 1) n (by omega)
  intro e
  apply h1
  have : (natRepr n).data = ("" : String).data := by rw [e]
  simpa [natRepr] using this

theorem loadOffset_natRepr (n : Nat) :
    loadOffset (some (natRepr n)) = (n : Int) := by
  simp only [loadOffset, pyStrip_natRepr]
  simp [natRepr_ne_empty n, pyInt?_natRepr n]

theorem readline_eof (content : List Char) (pos : Nat)
    (h : content.length ≤ pos) : readline content pos = [] := by
  unfold readline
  rw [List.drop_eq_nil_of_le h]
  rfl

theorem readLines_eof (content : List Char) (pos limit : Nat)
    (h : content.length ≤ pos) :
    readLines content pos limit = ([], pos) := by
  unfold readLines
  cases limit with
  | zero => rfl
  | succ f => simp [readLinesAux, readline_eof content pos h]

theorem runIngest_shape (limit : Nat) (failAfter : Option Nat)
    (env : IngestEnv) :
    (∃ i s n db1, runIngest limit failAfter env =
        (.committed i s n,
         { env with db := db1, stateContent := some (natRepr n) })) ∨
    (runIngest limit failAfter env).2 = env := by
  cases hl : env.logContent with
  | none => right; simp [runIngest, hl]
  | some content =>
    cases hr : env.logReadable with
    | false => right; simp [runIngest, hl, hr]
    | true =>
      by_cases ho : effectiveOffset env.stateContent content.length < 0
      · right; simp [runIngest, hl, hr, ho]
      · by_cases he : (readLines content.data
            (effectiveOffset env.stateContent content.length).toNat
            limit).1 = []
        · right; simp [runIngest, hl, hr, ho, he]
        · cases hp : processBatch failAfter
              (readLines content.data
                (effectiveOffset env.stateContent
                  content.length).toNat limit).1 env.db 0 0 with
          | none => right; simp [runIngest, hl, hr, ho, he, hp]
          | some t =>
            left
            refine ⟨t.2.1, t.2.2,
              (readLines content.data
                (effectiveOffset env.stateContent
                  content.length).toNat limit).2, t.1, ?_⟩
            simp [runIngest, hl, hr, ho, he, hp]

theorem runIngest_committed_inv (limit : Nat) (failAfter : Option Nat)
    (env : IngestEnv) (i s n : Nat)
    (h : (runIngest limit failAfter env).1 = .committed i s n) :
    ∃ content db1,
      env.logContent = some content ∧ env.logReadable = true ∧
      ¬ effectiveOffset env.stateContent content.length < 0 ∧
      (readLines content.data
        (effectiveOffset env.stateContent content.length).toNat limit).2
        = n ∧
      processBatch failAfter (readLines content.data
        (effectiveOffset env.stateContent content.length).toNat
        limit).1 env.db 0 0 = some (db1, i, s) ∧
      runIngest limit failAfter env =
        (.committed i s n,
         { env with db := db1, stateContent := some (natRepr n) }) := by
  cases hl : env.logContent with
  | none => simp [runIngest, hl] at h
  | some content =>
    cases hr : env.logReadable with
    | false => simp [runIngest, hl, hr] at h
    | true =>
      by_cases ho : effectiveOffset env.stateContent content.length < 0
      · simp [runIngest, hl, hr, ho] at h
      · by_cases he : (readLines content.data
            (effectiveOffset env.stateContent content.length).toNat
            limit).1 = []
        · simp [runIngest, hl, hr, ho, he] at h
        · cases hp : processBatch failAfter
              (readLines content.data
                (effectiveOffset env.stateContent
                  content.length).toNat limit).1 env.db 0 0 with
          | none => simp [runIngest, hl, hr, ho, he, hp] at h
          | some t =>
            obtain ⟨db1, i', s'⟩ := t
            simp [runIngest, hl, hr, ho, he, hp] at h
            obtain ⟨h1, h2, h3⟩ := h
            subst h1 h2 h3
            exact ⟨content, db1, rfl, rfl, ho, rfl, hp,
              by simp [runIngest, hl, hr, ho, he, hp]⟩

-- ===================================================================
-- C6
-- ===================================================================

/-- C6: the stored offset loads as 0 when the state file is absent or its
(stripped) content does not parse as an integer; whenever the log size is
smaller than the loaded offset the effective offset is forced to 0, and
such a run neither crashes nor seeks past end-of-file: it produces the
same result and database as a run whose stored offset is literally 0. -/
theorem C6_offset_default_and_rotation_reset :
    loadOffset none = 0 ∧
    (∀ s : String,
      pyInt? (if pyStrip s = "" then "0" else pyStrip s) = none →
      loadOffset (some s) = 0) ∧
    (∀ (st : Option String) (size : Nat),
      (size : Int) < loadOffset st → effectiveOffset st size = 0) ∧
    (∀ (limit : Nat) (failAfter : Option Nat) (env : IngestEnv)
       (content : String),
      env.logContent = some content → env.logReadable = true →
      (content.length : Int) < loadOffset env.stateContent →
      (runIngest limit failAfter env).1 ≠ .crashed ∧
      (runIngest limit failAfter env).1 =
        (runIngest limit failAfter
          { env with stateContent := some "0" }).1 ∧
      (runIngest limit failAfter env).2.db =
        (runIngest limit failAfter
          { env with stateContent := some "0" }).2.db) := by
  have part3 : ∀ (st : Option String) (size : Nat),
      (size : Int) < loadOffset st → effectiveOffset st size = 0 := by
    intro st size hlt
    unfold effectiveOffset
    rw [if_pos hlt]
  refine ⟨rfl, ?_, part3, ?_⟩
  · intro s h
    simp [loadOffset, h]
  · intro limit failAfter env content hc hr hlt
    have h0 : effectiveOffset env.stateContent content.length = 0 :=
      part3 _ _ hlt
    have h0' : effectiveOffset (some "0") content.length = 0 := by
      unfold effectiveOffset
      have : loadOffset (some "0") = 0 := rfl
      rw [this, if_neg (by omega)]
    by_cases he : (readLines content.data 0 limit).1 = []
    · simp [runIngest, hc, hr, h0, h0', he]
    · cases hp : processBatch failAfter
          (readLines content.data 0 limit).1 env.db 0 0 with
      | none => simp [runIngest, hc, hr, h0, h0', he, hp]
      | some t => simp [runIngest, hc, hr, h0, h0', he, hp]

set_option maxRecDepth 100000 in
/-- Witness for C6: a corrupt state file loads as offset 0, and over the
202-byte sample log a stored offset of 500 behaves exactly as offset 0. -/
theorem C6_offset_default_and_rotation_reset_witness :
    loadOffset (some "garbage") = 0 ∧
    ((runIngest 5000 none rotEnv).1 ≠ .crashed ∧
     (runIngest 5000 none rotEnv).1 =
       (runIngest 5000 none
         { rotEnv with stateContent := some "0" }).1 ∧
     (runIngest 5000 none rotEnv).2.db =
       (runIngest 5000 none
         { rotEnv with stateContent := some "0" }).2.db) :=
  ⟨C6_offset_default_and_rotation_reset.2.1 "garbage" rfl,
   C6_offset_default_and_rotation_reset.2.2.2 5000 none rotEnv sampleLog
     rfl rfl (by decide)⟩

-- ===================================================================
-- C7
-- ===================================================================

set_option maxRecDepth 100000 in
/-- C7 counterexample: with batch limit 1 over the unchanged two-line
sample log, the first run commits one row and the second run — no growth
in between — commits one more row (inserted = 1, not 0), because the
first run's offset (97) stopped at the batch limit, not at end of
file. -/
theorem C7_counterexample_second_run_inserts :
    (runIngest 1 none freshEnv).1 = .committed 1 0 97 ∧
    (runIngest 1 none freshEnv).2.logContent = freshEnv.logContent ∧
    (runIngest 1 none (runIngest 1 none freshEnv).2).1 =
      .committed 1 0 202 ∧
    (runIngest 1 none
      (runIngest 1 none freshEnv).2).2.db.requests.length = 2 :=
  ⟨rfl, rfl, rfl, rfl⟩

/-- C7 amended: when a committed run's new offset reaches end of file
(the whole remainder fit into the batch limit), a second run over the
unchanged log reads zero lines and is a strict no-op: result
`noNewLines`, database and offset file untouched. -/
theorem C7_amended_full_read_second_run_noop (limit limit2 : Nat)
    (failAfter failAfter2 : Option Nat) (env : IngestEnv)
    (content : String) (i s n : Nat)
    (hc : env.logContent = some content)
    (h : (runIngest limit failAfter env).1 = .committed i s n)
    (heof : n = content.length) :
    runIngest limit2 failAfter2 ((runIngest limit failAfter env).2) =
      (.noNewLines, (runIngest limit failAfter env).2) := by
  subst heof
  obtain ⟨content', db1, hc', hr, ho, hn, hp, heq⟩ :=
    runIngest_committed_inv limit failAfter env i s content.length h
  rw [hc] at hc'
  injection hc' with hcc
  subst hcc
  rw [heq]
  have hload : loadOffset (some (natRepr content.length)) =
      (content.length : Int) := loadOffset_natRepr content.length
  have heff : effectiveOffset (some (natRepr content.length))
      content.length = (content.length : Int) := by
    unfold effectiveOffset
    rw [hload, if_neg (by omega)]
  have hrl : readLines content.data content.length limit2 =
      ([], content.length) :=
    readLines_eof content.data content.length limit2 (by simp)
  simp [runIngest, hc, hr, heff, hrl]

set_option maxRecDepth 100000 in
/-- Witness for C7's amended theorem: with limit 5000 the first run over
the sample log consumes to end of file (offset 202), and the second run
is a no-op. -/
theorem C7_amended_full_read_second_run_noop_witness :
    runIngest 5000 none ((runIngest 5000 none freshEnv).2) =
      (.noNewLines, (runIngest 5000 none freshEnv).2) :=
  C7_amended_full_read_second_run_noop 5000 5000 none none freshEnv
    sampleLog 2 0 202 rfl rfl rfl

-- ===================================================================
-- C8
-- ===================================================================

/-- C8: a missing or unreadable log file, an empty read, and an aborted
transaction all end the run with the environment — state file and
database — untouched (in general, any non-committed run changes
nothing); and a committed run's final environment holds exactly the
batch's database together with the state file overwritten by the offset
after the last line read, written only with the commit. -/
theorem C8_offset_persisted_only_after_commit :
    (∀ (limit : Nat) (failAfter : Option Nat) (env : IngestEnv),
      env.logContent = none →
      runIngest limit failAfter env = (.missingLog, env)) ∧
    (∀ (limit : Nat) (failAfter : Option Nat) (env : IngestEnv)
       (content : String),
      env.logContent = some content → env.logReadable = false →
      runIngest limit failAfter env = (.permissionDenied, env)) ∧
    (∀ (limit : Nat) (failAfter : Option Nat) (env : IngestEnv)
       (content : String),
      env.logContent = some content → env.logReadable = true →
      ¬ effectiveOffset env.stateContent content.length < 0 →
      (readLines content.data
        (effectiveOffset env.stateContent content.length).toNat
        limit).1 = [] →
      runIngest limit failAfter env = (.noNewLines, env)) ∧
    (∀ (limit : Nat) (failAfter : Option Nat) (env : IngestEnv)
       (content : String),
      env.logContent = some content → env.logReadable = true →
      ¬ effectiveOffset env.stateContent content.length < 0 →
      ¬ (readLines content.data
          (effectiveOffset env.stateContent content.length).toNat
          limit).1 = [] →
      processBatch failAfter (readLines content.data
        (effectiveOffset env.stateContent content.length).toNat
        limit).1 env.db 0 0 = none →
      runIngest limit failAfter env = (.txAborted, env)) ∧
    (∀ (limit : Nat) (failAfter : Option Nat) (env : IngestEnv),
      (∀ i s n, (runIngest limit failAfter env).1 ≠ .committed i s n) →
      (runIngest limit failAfter env).2 = env) ∧
    (∀ (limit : Nat) (failAfter : Option Nat) (env : IngestEnv)
       (i s n : Nat),
      (runIngest limit failAfter env).1 = .committed i s n →
      ∃ content db1,
        env.logContent = some content ∧
        (readLines content.data
          (effectiveOffset env.stateContent content.length).toNat
          limit).2 = n ∧
        processBatch failAfter (readLines content.data
          (effectiveOffset env.stateContent content.length).toNat
          limit).1 env.db 0 0 = some (db1, i, s) ∧
        (runIngest limit failAfter env).2 =
          { env with db := db1, stateContent := some (natRepr n) }) := by
  refine ⟨?_, ?_, ?_, ?_, ?_, ?_⟩
  · intro limit failAfter env h
    simp [runIngest, h]
  · intro limit failAfter env content hc hr
    simp [runIngest, hc, hr]
  · intro limit failAfter env content hc hr ho he
    simp [runIngest, hc, hr, ho, he]
  · intro limit failAfter env content hc hr ho he hp
    simp [runIngest, hc, hr, ho, he, hp]
  · intro limit failAfter env h
    rcases runIngest_shape limit failAfter env with
      ⟨i, s, n, db1, heq⟩ | hsame
    · exact absurd (by rw [heq]) (h i s n)
    · exact hsame
  · intro limit failAfter env i s n h
    obtain ⟨content, db1, hc, hr, ho, hn, hp, heq⟩ :=
      runIngest_committed_inv limit failAfter env i s n h
    exact ⟨content, db1, hc, hn, hp, by rw [heq]⟩

set_option maxRecDepth 100000 in
/-- Witness for C8: a missing log file aborts untouched, and a storage
failure on the first insert rolls the whole sample batch back, leaving
the environment unchanged. -/
theorem C8_offset_persisted_only_after_commit_witness :
    runIngest 7 none ⟨none, true, some "5", ⟨[], [], []⟩⟩ =
      (.missingLog, ⟨none, true, some "5", ⟨[], [], []⟩⟩) ∧
    runIngest 5000 (some 1) freshEnv = (.txAborted, freshEnv) :=
  ⟨C8_offset_persisted_only_after_commit.1 7 none _ rfl,
   C8_offset_persisted_only_after_commit.2.2.2.1 5000 (some 1) freshEnv
     sampleLog rfl rfl (by decide) (by decide) rfl⟩

-- ===================================================================
-- URL helper lemmas
-- ===================================================================

theorem splitOnceChar_not_mem {c : Char} {l : List Char} (h : c ∉ l) :
    splitOnceChar c l = none := by
  induction l with
  | nil => rfl
  | cons x xs ih =>
    have hx : x ≠ c := fun e => h (by simp [e])
    simp [splitOnceChar, hx, ih (fun hm => h (by simp [hm]))]

theorem splitOnceChar_append {c : Char} {a : List Char} (r : List Char)
    (h : c ∉ a) :
    splitOnceChar c (a ++ r) =
      (splitOnceChar c r).map (fun p => (a ++ p.1, p.2)) := by
  induction a with
  | nil =>
    cases hr : splitOnceChar c r with
    | none => simp [hr]
    | some p => simp [hr]
  | cons x xs ih =>
    have hx : x ≠ c := fun e => h (by simp [e])
    have ih' := ih (fun hm => h (by simp [hm]))
    simp only [List.cons_append, splitOnceChar, hx, if_false]
    cases hr : splitOnceChar c r with
    | none => simp [hr, ih']
    | some p => simp [hr, ih']

theorem splitOnceChar_cons_self (c : Char) (b : List Char) :
    splitOnceChar c (c :: b) = some ([], b) := by
  simp [splitOnceChar]

theorem spanNot_append_all {stops : List Char} {a : List Char}
    (r : List Char) (h : ∀ x ∈ a, x ∉ stops) :
    spanNot stops (a ++ r) =
      (a ++ (spanNot stops r).1, (spanNot stops r).2) := by
  induction a with
  | nil => simp
  | cons x xs ih =>
    have hx : x ∉ stops := h x (by simp)
    simp [spanNot, hx, ih (fun y hy => h y (by simp [hy]))]

theorem spanNot_stop {stops : List Char} {r : List Char}
    (h : r = [] ∨ ∃ x xs, r = x :: xs ∧ x ∈ stops) :
    spanNot stops r = ([], r) := by
  rcases h with rfl | ⟨x, xs, rfl, hx⟩
  · rfl
  · simp [spanNot, hx]

theorem takeWhile_append_all {p : Char → Bool} {a : List Char}
    (r : List Char) (h : ∀ x ∈ a, p x = true) :
    (a ++ r).takeWhile p = a ++ r.takeWhile p := by
  induction a with
  | nil => simp
  | cons x xs ih =>
    simp [List.takeWhile, h x (by simp), ih (fun y hy => h y (by simp [hy]))]

theorem takeWhile_all {p : Char → Bool} {l : List Char}
    (h : ∀ x ∈ l, p x = true) : l.takeWhile p = l := by
  induction l with
  | nil => rfl
  | cons x xs ih =>
    simp [List.takeWhile, h x (by simp), ih (fun y hy => h y (by simp [hy]))]

theorem char_ne_of_pred {p : Char → Bool} {c x : Char}
    (h1 : p c = true) (h2 : p x = false) : c ≠ x := fun e => by
  rw [e, h2] at h1
  cases h1

theorem pyUrlsplit_core_aux (sd hd ppd pd qpd : List Char)
    (qres : List Char)
    (hs0 : sd ≠ [])
    (hs1 : sd.head?.elim false Char.isAlpha = true)
    (hs2 : ∀ c ∈ sd, isSchemeChar c = true)
    (hs3 : sd.map Char.toLower = sd)
    (hnet : ∀ c ∈ hd ++ ppd, c ∉ (['/', '?', '#'] : List Char))
    (hpd : pd = [] ∨ ∃ t, pd = '/' :: t)
    (hpd1 : ∀ c ∈ pd, isPathChar c = true)
    (hq : (qpd = [] ∧ qres = []) ∨
          (qpd = '?' :: qres ∧ ∀ c ∈ qres, c ≠ '#')) :
    pyUrlsplit ⟨sd ++ ':' :: '/' :: '/' :: (hd ++ ppd ++ pd ++ qpd)⟩ =
      ⟨⟨sd⟩, ⟨hd ++ ppd⟩, ⟨pd⟩, ⟨qres⟩, ""⟩ := by
  have hcolon : ':' ∉ sd := fun hm =>
    absurd (hs2 ':' hm) (by decide)
  have hsplit1 : splitOnceChar ':'
      (sd ++ ':' :: '/' :: '/' :: (hd ++ ppd ++ pd ++ qpd)) =
      some (sd, '/' :: '/' :: (hd ++ ppd ++ pd ++ qpd)) := by
    rw [splitOnceChar_append _ hcolon, splitOnceChar_cons_self]
    simp
  have hrest : pd ++ qpd = [] ∨ ∃ x xs, pd ++ qpd = x :: xs ∧
      x ∈ (['/', '?', '#'] : List Char) := by
    rcases hpd with rfl | ⟨t, rfl⟩
    · rcases hq with ⟨rfl, rfl⟩ | ⟨rfl, _⟩
      · left; rfl
      · right; exact ⟨'?', qres, rfl, by simp⟩
    · right; exact ⟨'/', t ++ qpd, rfl, by simp⟩
  have hspan : spanNot ['/', '?', '#'] ((hd ++ ppd) ++ (pd ++ qpd)) =
      (hd ++ ppd, pd ++ qpd) := by
    rw [spanNot_append_all _ hnet, spanNot_stop hrest]
    simp
  have hfrag : '#' ∉ pd ++ qpd := by
    intro hm
    rcases List.mem_append.mp hm with hm | hm
    · exact char_ne_of_pred (hpd1 _ hm)
        (by decide : isPathChar '#' = false) rfl
    · rcases hq with ⟨rfl, rfl⟩ | ⟨rfl, hqc⟩
      · simp at hm
      · rcases List.mem_cons.mp hm with he | hm2
        · cases he
        · exact hqc '#' hm2 rfl
  have hfragsplit : splitOnceChar '#' (pd ++ qpd) = none :=
    splitOnceChar_not_mem hfrag
  have hqmark : '?' ∉ pd := fun hm =>
    char_ne_of_pred (hpd1 _ hm) (by decide : isPathChar '?' = false) rfl
  have hqsplit : splitOnceChar '?' (pd ++ qpd) =
      if qpd = [] then none else some (pd, qres) := by
    rw [splitOnceChar_append _ hqmark]
    rcases hq with ⟨rfl, rfl⟩ | ⟨rfl, _⟩
    · simp [splitOnceChar]
    · simp [splitOnceChar_cons_self]
  simp only [List.append_assoc] at hsplit1 hspan hfragsplit hqsplit ⊢
  rcases hq with ⟨rfl, rfl⟩ | ⟨hqpd, hqc⟩
  · simp only [List.append_nil] at hsplit1 hspan hfragsplit hqsplit ⊢
    simp [pyUrlsplit, hsplit1, hs0, hs1, eq_true hs2, hs3, hspan,
      hfragsplit, hqsplit]
  · subst hqpd
    simp only [if_neg (by simp : ¬('?' :: qres = []))] at hqsplit
    simp [pyUrlsplit, hsplit1, hs0, hs1, eq_true hs2, hs3, hspan,
      hfragsplit, hqsplit]

theorem hostinfo_no_at {l : List Char} (h : '@' ∉ l) : hostinfo l = l := by
  unfold hostinfo
  have hall : ∀ c ∈ l.reverse, (fun c => decide (c ≠ '@')) c = true := by
    intro c hc
    simp only [List.mem_reverse] at hc
    simp only [decide_eq_true_eq]
    intro e
    subst e
    exact h hc
  rw [takeWhile_all hall]
  simp

theorem pyHostname_wf (hd ppd : List Char)
    (hh0 : hd ≠ [])
    (hh1 : ∀ c ∈ hd, isHostChar c = true)
    (hpp : ppd = [] ∨ ∃ t, ppd = ':' :: t ∧ ∀ c ∈ t, c.isDigit = true) :
    pyHostname (hd ++ ppd) = some ⟨hd.map Char.toLower⟩ := by
  have hat : '@' ∉ hd ++ ppd := by
    intro hm
    rcases List.mem_append.mp hm with hm | hm
    · exact char_ne_of_pred (hh1 _ hm)
        (by decide : isHostChar '@' = false) rfl
    · rcases hpp with rfl | ⟨t, rfl, ht⟩
      · simp at hm
      · rcases List.mem_cons.mp hm with he | hm2
        · cases he
        · exact char_ne_of_pred (ht _ hm2)
            (by decide : Char.isDigit '@' = false) rfl
  have hcol : ∀ c ∈ hd, (c ≠ ':' : Bool) = true := fun c hc => by
    simp [char_ne_of_pred (hh1 c hc) (by decide : isHostChar ':' = false)]
  unfold pyHostname
  rw [hostinfo_no_at hat, takeWhile_append_all _ hcol]
  rcases hpp with rfl | ⟨t, rfl, _⟩
  · simp [List.takeWhile, hh0]
  · simp [List.takeWhile, hh0]

theorem pyPort_wf_none (hd : List Char)
    (hh1 : ∀ c ∈ hd, isHostChar c = true) :
    pyPort (hd ++ []) = none := by
  have hat : '@' ∉ hd ++ ([] : List Char) := by
    intro hm
    rcases List.mem_append.mp hm with hm | hm
    · exact char_ne_of_pred (hh1 _ hm)
        (by decide : isHostChar '@' = false) rfl
    · simp at hm
  have hcol : ':' ∉ hd := fun hm =>
    char_ne_of_pred (hh1 _ hm) (by decide : isHostChar ':' = false) rfl
  unfold pyPort
  rw [hostinfo_no_at hat]
  rw [show hd ++ ([] : List Char) = hd from by simp]
  rw [splitOnceChar_not_mem hcol]

theorem pyPort_wf_some (hd : List Char) (n : Nat)
    (hh1 : ∀ c ∈ hd, isHostChar c = true)
    (hn : n ≤ 65535) :
    pyPort (hd ++ ':' :: (natRepr n).data) = some n := by
  have hat : '@' ∉ hd ++ ':' :: (natRepr n).data := by
    intro hm
    rcases List.mem_append.mp hm with hm | hm
    · exact char_ne_of_pred (hh1 _ hm)
        (by decide : isHostChar '@' = false) rfl
    · rcases List.mem_cons.mp hm with he | hm2
      · cases he
      · exact char_ne_of_pred (natRepr_digits n _ hm2)
          (by decide : Char.isDigit '@' = false) rfl
  have hcol : ':' ∉ hd := fun hm =>
    char_ne_of_pred (hh1 _ hm) (by decide : isHostChar ':' = false) rfl
  unfold pyPort
  rw [hostinfo_no_at hat, splitOnceChar_append _ hcol,
    splitOnceChar_cons_self]
  simp [digitsToNat?_natRepr n, hn]

-- ===================================================================
-- C5
-- ===================================================================

/-- C5: on every well-formed absolute URL token — a valid lower-case
scheme, a non-empty lower-case host, an optional explicit port in
1..65535, an absolute (or absent) path and a query — `parse_url` returns
exactly the decomposition the specification describes
(`specUrlDecompose`): the written scheme, the written host, the explicit
port or 443/80 by scheme, the written path or `/`, the written query or
empty; and on the spec's sample URLs, `http://example.com/a?x=1` yields
query `x=1` (port 80) and `https://facebook.com/` yields port 443. -/
theorem C5_parse_url_standard_decomposition
    (scheme host path query : String) (port : Option Nat)
    (hs0 : scheme.data ≠ [])
    (hs1 : scheme.data.head?.elim false Char.isAlpha = true)
    (hs2 : ∀ c ∈ scheme.data, isSchemeChar c = true)
    (hs3 : scheme.data.map Char.toLower = scheme.data)
    (hh0 : host.data ≠ [])
    (hh1 : ∀ c ∈ host.data, isHostChar c = true)
    (hh2 : host.data.map Char.toLower = host.data)
    (hp : path.data = [] ∨ ∃ t, path.data = '/' :: t)
    (hp1 : ∀ c ∈ path.data, isPathChar c = true)
    (hq1 : ∀ c ∈ query.data, isQueryChar c = true)
    (hpt : ∀ n, port = some n → 0 < n ∧ n ≤ 65535) :
    parse_url (mkUrlToken scheme host port path query) =
      specUrlDecompose scheme host port path query ∧
    parse_url "http://example.com/a?x=1" =
      ("http", "example.com", 80, "/a", "x=1") ∧
    parse_url "https://facebook.com/" =
      ("https", "facebook.com", 443, "/", "") := by
  refine ⟨?_, rfl, rfl⟩
  have hsne : scheme ≠ "" := fun e => hs0 (by rw [e])
  set ppd : List Char := (match port with
    | some n => ':' :: (natRepr n).data
    | none => []) with hppd
  have hppshape : ppd = [] ∨
      ∃ t, ppd = ':' :: t ∧ ∀ c ∈ t, c.isDigit = true := by
    rcases port with _ | n
    · left; rfl
    · right; exact ⟨(natRepr n).data, rfl, natRepr_digits n⟩
  have hnet : ∀ c ∈ host.data ++ ppd,
      c ∉ (['/', '?', '#'] : List Char) := by
    intro c hm
    rcases List.mem_append.mp hm with hm | hm
    · have := hh1 c hm
      simp only [List.mem_cons, List.not_mem_nil, or_false]
      push_neg
      refine ⟨?_, ?_, ?_⟩ <;>
        exact char_ne_of_pred this (by decide)
    · rcases hppshape with he | ⟨t, he, ht⟩
      · rw [he] at hm; simp at hm
      · rw [he] at hm
        rcases List.mem_cons.mp hm with rfl | hm2
        · decide
        · have := ht c hm2
          simp only [List.mem_cons, List.not_mem_nil, or_false]
          push_neg
          refine ⟨?_, ?_, ?_⟩ <;>
            exact char_ne_of_pred this (by decide)
  by_cases hqq : query = ""
  · subst hqq
    have htok : mkUrlToken scheme host port path "" =
        ⟨scheme.data ++ ':' :: '/' :: '/' ::
          (host.data ++ ppd ++ path.data ++ [])⟩ := by
      apply String.ext
      rcases port with _ | n <;>
        simp [mkUrlToken, String.data_append, hppd]
    have hsplit := pyUrlsplit_core_aux scheme.data host.data ppd
      path.data [] [] hs0 hs1 hs2 hs3 hnet hp hp1 (Or.inl ⟨rfl, rfl⟩)
    rw [htok]
    unfold parse_url
    rw [hsplit]
    have hhost : pyHostname ((⟨host.data ++ ppd⟩ : String)).data =
        some ⟨host.data.map Char.toLower⟩ :=
      pyHostname_wf host.data ppd hh0 hh1 hppshape
    rcases port with _ | n
    · have hport : pyPort ((⟨host.data ++ ppd⟩ : String)).data = none := by
        simp only [hppd]
        exact pyPort_wf_none host.data hh1
      simp [specUrlDecompose, hhost, hport, hh2, hsne]
    · obtain ⟨hn0, hn65⟩ := hpt n rfl
      have hport : pyPort ((⟨host.data ++ ppd⟩ : String)).data =
          some n := by
        simp only [hppd]
        exact pyPort_wf_some host.data n hh1 hn65
      simp [specUrlDecompose, hhost, hport, hh2, hsne]
      intro h0
      exact absurd h0 (by omega)
  · have hqd : query.data ≠ [] := fun e => hqq (String.ext e)
    have htok : mkUrlToken scheme host port path query =
        ⟨scheme.data ++ ':' :: '/' :: '/' ::
          (host.data ++ ppd ++ path.data ++ ('?' :: query.data))⟩ := by
      apply String.ext
      rcases port with _ | n <;>
        simp [mkUrlToken, String.data_append, hppd, hqq]
    have hsplit := pyUrlsplit_core_aux scheme.data host.data ppd
      path.data ('?' :: query.data) query.data hs0 hs1 hs2 hs3 hnet hp hp1
      (Or.inr ⟨rfl, fun c hc =>
        char_ne_of_pred (hq1 c hc) (by decide : isQueryChar '#' = false)⟩)
    rw [htok]
    unfold parse_url
    rw [hsplit]
    have hhost : pyHostname ((⟨host.data ++ ppd⟩ : String)).data =
        some ⟨host.data.map Char.toLower⟩ :=
      pyHostname_wf host.data ppd hh0 hh1 hppshape
    rcases port with _ | n
    · have hport : pyPort ((⟨host.data ++ ppd⟩ : String)).data = none := by
        simp only [hppd]
        exact pyPort_wf_none host.data hh1
      simp [specUrlDecompose, hhost, hport, hh2, hsne]
    · obtain ⟨hn0, hn65⟩ := hpt n rfl
      have hport : pyPort ((⟨host.data ++ ppd⟩ : String)).data =
          some n := by
        simp only [hppd]
        exact pyPort_wf_some host.data n hh1 hn65
      simp [specUrlDecompose, hhost, hport, hh2, hsne]
      intro h0
      exact absurd h0 (by omega)

/-- Witness for C5 at an https URL with an explicit port and query. -/
theorem C5_parse_url_standard_decomposition_witness :
    parse_url "https://proxy.example.org:3128/cache?a=1" =
      ("https", "proxy.example.org", 3128, "/cache", "a=1") :=
  (C5_parse_url_standard_decomposition "https" "proxy.example.org"
    "/cache" "a=1" (some 3128)
    (by decide) (by decide) (by decide) (by decide) (by decide)
    (by decide) (by decide) (Or.inr ⟨_, rfl⟩) (by decide) (by decide)
    (fun n h => by cases h; exact ⟨by norm_num, by norm_num⟩)).1

end ProxyFirewall
